import Mathlib

/-!
Shallow embedding of the timestamp-assignment component
(src/src/coord/timestamp.rs) of the materialize coordinator.

Machine integers are modelled as follows: u64 values (timestamps) are Nat
together with the constant U64MAX for the u64::MAX comparison; i32 values
(partition ids and counts) and i64 values (offsets, max_increment_size)
are Int.  HashMap is modelled as an association list with the usual
insert/lookup/remove semantics.  The external world (Kafka polls, the
system clock, the SQLite store) is passed in explicitly: the consistency
topic of a source is a queue of payloads, the wall clock is a list of
successive SystemTime::now readings, and the store is the list of
persisted rows.
-/

/-- Maximum representable u64 value (std::u64::MAX). -/
def U64MAX : Nat := 18446744073709551615

/-- Association-list lookup, modelling HashMap::get. -/
def alLookup {κ α : Type} [DecidableEq κ] (k : κ) : List (κ × α) → Option α
  | [] => none
  | (k0, v0) :: rest => if k0 = k then some v0 else alLookup k rest

/-- Association-list insert, modelling HashMap::insert (replace or append). -/
def alInsert {κ α : Type} [DecidableEq κ] (k : κ) (v : α) : List (κ × α) → List (κ × α)
  | [] => [(k, v)]
  | (k0, v0) :: rest => if k0 = k then (k, v) :: rest else (k0, v0) :: alInsert k v rest

/-- Association-list removal, modelling HashMap::remove. -/
def alRemove {κ α : Type} [DecidableEq κ] (k : κ) : List (κ × α) → List (κ × α)
  | [] => []
  | (k0, v0) :: rest => if k0 = k then alRemove k rest else (k0, v0) :: alRemove k rest

/-- Envelope (dataflow_types::Envelope): None or Debezium. -/
inductive Envelope : Type
  | None
  | Debezium
deriving DecidableEq

/-- Consistency model (dataflow_types::Consistency). -/
inductive Consistency : Type
  | realTime
  | bringYourOwn (consistency_topic : String)
deriving DecidableEq

/-- External source connector spec (dataflow_types::ExternalSourceConnector),
keeping only the data the timestamper reads (the Kafka topic name). -/
inductive ExternalSourceConnector : Type
  | kafka (topic : String)
  | file
  | avroOcf
  | kinesis
deriving DecidableEq

/-- RtTimestampConnector: the connector variant held by an RT consumer. -/
inductive RtConnectorKind : Type
  | kafka (topic : String)
  | file
  | kinesis
deriving DecidableEq

/-- ByoTimestampConnector: the connector variant held by a BYO consumer. -/
inductive ByoConnectorKind : Type
  | kafka (timestamp_topic : String)
  | file
  | kinesis
deriving DecidableEq

/-- RtTimestampConsumer: connector plus the last offset already assigned. -/
structure RtTimestampConsumer where
  connector : RtConnectorKind
  last_offset : Int
deriving DecidableEq

/-- ByoTimestampConsumer: connector, source name, envelope and the
per-source progress state (last_partition_ts, last_ts,
current_partition_count). -/
structure ByoTimestampConsumer where
  connector : ByoConnectorKind
  source_name : String
  envelope : Envelope
  last_partition_ts : List (Int × Nat)
  last_ts : Nat
  current_partition_count : Int
deriving DecidableEq

/-- A raw message polled from a consistency topic: either bytes that are
not valid UTF-8, or the decoded text. -/
inductive Payload : Type
  | utf8Err
  | text (s : String)
deriving DecidableEq

/-- A parsed BYO timestamp update (partition_count, partition, ts, offset),
the tuple type returned by byo_extract_ts_update. -/
structure TsUpdate where
  partition_count : Int
  partition : Int
  ts : Nat
  offset : Int
deriving DecidableEq

/-- An AdvanceSourceTimestamp message without the source id (the fields a
single BYO consumer produces; the id is attached by the caller). -/
structure ByoMsg where
  partition_count : Int
  pid : Int
  timestamp : Nat
  offset : Int
deriving DecidableEq

/-- coord::Message::AdvanceSourceTimestamp. -/
structure AdvanceMsg where
  id : Nat
  partition_count : Int
  pid : Int
  timestamp : Nat
  offset : Int
deriving DecidableEq

/-- Attach a source id to a per-consumer message. -/
def withId (id : Nat) (m : ByoMsg) : AdvanceMsg :=
  ⟨id, m.partition_count, m.pid, m.timestamp, m.offset⟩

/-- A persisted row of the timestamps table:
(sid/vid collapsed to one id, pcount, pid, timestamp, offset). -/
structure TimestampRecord where
  id : Nat
  pcount : Int
  pid : Int
  timestamp : Nat
  offset : Int
deriving DecidableEq

/- ------------------------------------------------------------------
   byo_query_source (timestamp.rs lines 103-126)
   ------------------------------------------------------------------ -/

/-- The Kafka drain loop of byo_query_source: pop messages from the
consistency-topic queue, counting them; stop when the count reaches
max_increment_size (the comparison is equality, as in the source) or the
queue is exhausted. -/
def byoDrain (maxInc : Int) : List Payload → Int → List Payload
  | [], _ => []
  | m :: rest, msg_count =>
    m :: (if msg_count + 1 = maxInc then [] else byoDrain maxInc rest (msg_count + 1))

/-- byo_query_source: drain up to max_increment_size raw messages from a
Kafka consistency topic; Kinesis and File connectors only log an error
and yield nothing. -/
def byo_query_source (k : ByoConnectorKind) (queue : List Payload) (maxInc : Int) :
    List Payload :=
  match k with
  | ByoConnectorKind.kafka _ => byoDrain maxInc queue 0
  | ByoConnectorKind.kinesis => []
  | ByoConnectorKind.file => []

/- ------------------------------------------------------------------
   byo_extract_ts_update (timestamp.rs lines 128-180)
   ------------------------------------------------------------------ -/

/-- Split a character list at every comma, as str::split(',') does. -/
def splitCommaChars : List Char → List (List Char)
  | [] => [[]]
  | ch :: rest =>
    match splitCommaChars rest with
    | [] => [[]]
    | f :: fs => if ch = ',' then [] :: f :: fs else (ch :: f) :: fs

/-- Split a string at every comma. -/
def splitComma (s : String) : List String :=
  (splitCommaChars s.data).map (fun cs => String.mk cs)

/-- Numeric value of a digit string. -/
def digitsToNat (cs : List Char) : Nat :=
  cs.foldl (fun a c => a * 10 + (c.toNat - 48)) 0

/-- Parse a non-empty all-digit character list. -/
def parseDigits (cs : List Char) : Option Nat :=
  if cs = [] then none
  else if cs.all (fun c => c.isDigit) then some (digitsToNat cs) else none

/-- str::parse::<u64>: optional leading plus sign, digits, bounded by
u64::MAX. -/
def parse_u64 (s : String) : Option Nat :=
  let cs := s.data
  let body := match cs with
    | c :: rest => if c = '+' then rest else cs
    | [] => cs
  match parseDigits body with
  | some n => if n ≤ U64MAX then some n else none
  | none => none

/-- str::parse for a signed integer type whose minimum is -bound and whose
maximum is bound - 1. -/
def parseSigned (bound : Nat) (s : String) : Option Int :=
  match s.data with
  | c :: rest =>
    if c = '-' then
      match parseDigits rest with
      | some n => if n ≤ bound then some (-(n : Int)) else none
      | none => none
    else
      match parseDigits (if c = '+' then rest else c :: rest) with
      | some n => if n + 1 ≤ bound then some (n : Int) else none
      | none => none
  | [] => none

/-- str::parse::<i32>. -/
def parse_i32 (s : String) : Option Int := parseSigned (2 ^ 31) s

/-- str::parse::<i64>. -/
def parse_i64 (s : String) : Option Int := parseSigned (2 ^ 63) s

/-- Processing of one raw payload by byo_extract_ts_update: decode UTF-8,
split on commas into exactly five fields, parse the numeric fields, and
keep the tuple only when the first field equals the tracked source's
name.  Any failure discards this single message. -/
def byo_extract_one (c : ByoTimestampConsumer) (p : Payload) : Option TsUpdate :=
  match p with
  | Payload.utf8Err => none
  | Payload.text s =>
    match splitComma s with
    | [f0, f1, f2, f3, f4] =>
      match parse_i32 f1, parse_i32 f2, parse_u64 f3, parse_i64 f4 with
      | some pc, some pid, some ts, some off =>
        if f0 = c.source_name then some ⟨pc, pid, ts, off⟩ else none
      | _, _, _, _ => none
    | _ => none

/-- byo_extract_ts_update: fold byo_extract_one over the drained messages,
skipping every message that fails to produce an update. -/
def byo_extract_ts_update (c : ByoTimestampConsumer) : List Payload → List TsUpdate
  | [] => []
  | p :: rest =>
    match byo_extract_one c p with
    | some u => u :: byo_extract_ts_update c rest
    | none => byo_extract_ts_update c rest

/- ------------------------------------------------------------------
   update_byo_timestamp (timestamp.rs lines 379-447)
   ------------------------------------------------------------------ -/

/-- The per-partition last accepted timestamp, defaulting to 0 when the
partition is absent from the map (timestamp.rs lines 388-391). -/
def lastPartTs (c : ByoTimestampConsumer) (p : Int) : Nat :=
  match alLookup p c.last_partition_ts with
  | some ts => ts
  | none => 0

/-- The rejection condition of update_byo_timestamp (lines 392-398):
a tuple is dropped when its timestamp is 0, is u64::MAX, is below the
source-wide last_ts, is at or below the partition's last timestamp, or
repeats last_ts exactly while the partition count grows. -/
def byoReject (c : ByoTimestampConsumer) (u : TsUpdate) : Bool :=
  decide (u.ts = 0) || decide (u.ts = U64MAX) || decide (u.ts < c.last_ts)
    || decide (u.ts ≤ lastPartTs c u.partition)
    || (decide (c.current_partition_count < u.partition_count)
        && decide (u.ts = c.last_ts))

/-- One iteration of the update loop of update_byo_timestamp (lines
385-440) for a single extracted tuple: a rejected tuple leaves the
consumer unchanged and sends nothing; an accepted tuple first sends the
synthetic closing message when the partition count grew, then updates
the consumer state and sends the real message. -/
def byoStep (c : ByoTimestampConsumer) (u : TsUpdate) :
    ByoTimestampConsumer × List ByoMsg :=
  if byoReject c u then (c, [])
  else
    ({ c with
        current_partition_count := u.partition_count,
        last_ts := u.ts,
        last_partition_ts := alInsert u.partition u.ts c.last_partition_ts },
      (if c.current_partition_count < u.partition_count then
        [⟨u.partition_count, u.partition_count - 1, c.last_ts, 0⟩]
      else []) ++ [⟨u.partition_count, u.partition, u.ts, u.offset⟩])

/-- The whole update loop of update_byo_timestamp for one consumer:
process the extracted tuples in order, threading the consumer state and
concatenating the emitted messages. -/
def byoRun (c : ByoTimestampConsumer) : List TsUpdate → ByoTimestampConsumer × List ByoMsg
  | [] => (c, [])
  | u :: rest =>
    let s1 := byoStep c u
    let s2 := byoRun s1.1 rest
    (s2.1, s1.2 ++ s2.2)

/-- The subsequence of tuples the update loop accepts (those that pass
byoReject), with the consumer state threaded exactly as byoRun does. -/
def byoAcceptedRun (c : ByoTimestampConsumer) : List TsUpdate → List TsUpdate
  | [] => []
  | u :: rest =>
    if byoReject c u then byoAcceptedRun c rest
    else u :: byoAcceptedRun (byoStep c u).1 rest

/- ------------------------------------------------------------------
   rt_generate_next_timestamp (timestamp.rs lines 780-791)
   ------------------------------------------------------------------ -/

/-- rt_generate_next_timestamp: re-sample SystemTime::now (the list of
successive clock readings) until a value strictly greater than
current_timestamp is observed; none models a clock that never advances
past current_timestamp within the supplied readings (the real loop would
keep spinning). -/
def rt_generate_next_timestamp (current : Nat) : List Nat → Option Nat
  | [] => none
  | r :: rest => if r ≤ current then rt_generate_next_timestamp current rest else some r

/-- Successive values taken by current_timestamp over a sequence of mint
operations, each fed its own list of clock readings. -/
def rtMintRun (current : Nat) : List (List Nat) → List Nat
  | [] => []
  | reads :: rest =>
    match rt_generate_next_timestamp current reads with
    | some t => t :: rtMintRun t rest
    | none => []

/- ------------------------------------------------------------------
   rt_query_sources (timestamp.rs lines 700-744)
   ------------------------------------------------------------------ -/

/-- The per-partition offset choice of rt_query_sources (lines 713-720):
cap the fetched high watermark at last_offset + max_increment_size. -/
def rtNextOffset (last high maxInc : Int) : Int :=
  if high - last > maxInc then last + maxInc else high

/-- The per-source partition loop of rt_query_sources: thread last_offset
through the partitions (pid, high watermark) of one Kafka source,
returning the final last_offset and the (pid, next_offset) pairs. -/
def rtQueryPartitions (maxInc : Int) (last : Int) : List (Int × Int) → Int × List (Int × Int)
  | [] => (last, [])
  | (p, high) :: rest =>
    let next := rtNextOffset last high maxInc
    let r := rtQueryPartitions maxInc next rest
    (r.1, (p, next) :: r.2)

/-- rt_query_sources over the registry of RT consumers.  The environment
rtEnv gives, per source id, the partition list with the successfully
fetched high watermark of each partition.  Kafka sources get the bounded
next offset per partition; File sources are unsupported; Kinesis sources
push the current global timestamp as a placeholder offset with partition
id and count zero. -/
def rt_query_sources (rtEnv : Nat → List (Int × Int)) (maxInc : Int) (current : Nat) :
    List (Nat × RtTimestampConsumer) →
      List (Nat × RtTimestampConsumer) × List (Nat × Int × Int × Int)
  | [] => ([], [])
  | (id, cons) :: rest =>
    let r := rt_query_sources rtEnv maxInc current rest
    match cons.connector with
    | RtConnectorKind.kafka _ =>
      let partitions := rtEnv id
      let partition_count : Int := partitions.length
      let q := rtQueryPartitions maxInc cons.last_offset partitions
      ((id, { cons with last_offset := q.1 }) :: r.1,
        (q.2.map (fun po => (id, partition_count, po.1, po.2))) ++ r.2)
    | RtConnectorKind.file => ((id, cons) :: r.1, r.2)
    | RtConnectorKind.kinesis => ((id, cons) :: r.1, (id, 0, 0, (current : Int)) :: r.2)

/- ------------------------------------------------------------------
   Timestamper state, Timestamper::new (timestamp.rs lines 222-284)
   ------------------------------------------------------------------ -/

/-- The mutable state of the Timestamper: the two registries, the
persisted store contents, the global clock, and the configured maximum
increment size. -/
structure TimestamperState where
  rt_sources : List (Nat × RtTimestampConsumer)
  byo_sources : List (Nat × ByoTimestampConsumer)
  storage : List TimestampRecord
  current_timestamp : Nat
  max_increment_size : Int
deriving DecidableEq

/-- MAX(timestamp) over the persisted rows; none models the SQL NULL on
an empty table. -/
def maxTimestampQ : List TimestampRecord → Option Nat
  | [] => none
  | r :: rest =>
    match maxTimestampQ rest with
    | none => some r.timestamp
    | some m => some (max r.timestamp m)

/-- Column values of the single result row of
SELECT MAX(timestamp) FROM timestamps: one column, NULL when the table
is empty. -/
def selectMaxTimestampRow (records : List TimestampRecord) : List (Option Nat) :=
  [maxTimestampQ records]

/-- The recovery read of Timestamper::new (lines 255-267): the closure
reads column index 2 of the result row (row.get(2)) and falls back to 0
whenever that read does not yield a value. -/
def newCurrentTimestamp (records : List TimestampRecord) : Nat :=
  match (selectMaxTimestampRow records).get? 2 with
  | some (some v) => v
  | _ => 0

/-- Modelled from the spec: the intended recovery value, max(timestamp)
over all persisted records and 0 when there are none (spec section 3,
GlobalClock). -/
def specRecoveredTimestamp (records : List TimestampRecord) : Nat :=
  match maxTimestampQ records with
  | some v => v
  | none => 0

/-- Timestamper::new: empty registries, the persisted store, the
recovered clock, and the configured maximum increment size. -/
def timestamperNew (max_size : Int) (records : List TimestampRecord) : TimestamperState :=
  ⟨[], [], records, newCurrentTimestamp records, max_size⟩

/- ------------------------------------------------------------------
   update_sources (timestamp.rs lines 328-365) and the helpers it calls
   ------------------------------------------------------------------ -/

/-- TimestampMessage: the control messages drained each tick. -/
inductive TimestampMessage : Type
  | add (id : Nat) (sc : ExternalSourceConnector) (consistency : Consistency) (e : Envelope)
  | dropInstance (id : Nat)
  | shutdown
deriving DecidableEq

/-- Insert a record into a list sorted by timestamp (the ORDER BY
timestamp of the recovery query). -/
def insertByTs (r : TimestampRecord) : List TimestampRecord → List TimestampRecord
  | [] => [r]
  | x :: xs => if r.timestamp ≤ x.timestamp then r :: x :: xs else x :: insertByTs r xs

/-- Sort persisted rows by timestamp. -/
def sortByTimestamp : List TimestampRecord → List TimestampRecord
  | [] => []
  | x :: xs => insertByTs x (sortByTimestamp xs)

/-- rt_recover_source (lines 659-694): replay the persisted rows of this
source ordered by timestamp, notifying the coordinator of each, and
return the maximum persisted offset (0 when there are none). -/
def rt_recover_source (storage : List TimestampRecord) (id : Nat) :
    Int × List AdvanceMsg :=
  let rows := sortByTimestamp (storage.filter (fun r => r.id == id))
  (rows.foldl (fun m r => if r.offset > m then r.offset else m) 0,
    rows.map (fun r => ⟨id, r.pcount, r.pid, r.timestamp, r.offset⟩))

/-- create_rt_connector (lines 450-474): wrap the source connector kind
with the recovered last offset. -/
def create_rt_connector (sc : ExternalSourceConnector) (last_offset : Int) :
    RtTimestampConsumer :=
  match sc with
  | ExternalSourceConnector.kafka topic => ⟨RtConnectorKind.kafka topic, last_offset⟩
  | ExternalSourceConnector.file => ⟨RtConnectorKind.file, last_offset⟩
  | ExternalSourceConnector.avroOcf => ⟨RtConnectorKind.file, last_offset⟩
  | ExternalSourceConnector.kinesis => ⟨RtConnectorKind.kinesis, last_offset⟩

/-- create_byo_connector (lines 536-587): every variant starts with an
empty last_partition_ts map, last_ts 0 and current_partition_count 0;
only the Kafka variant records the source's topic as source_name. -/
def create_byo_connector (sc : ExternalSourceConnector) (timestamp_topic : String)
    (e : Envelope) : ByoTimestampConsumer :=
  match sc with
  | ExternalSourceConnector.kafka topic =>
    ⟨ByoConnectorKind.kafka timestamp_topic, topic, e, [], 0, 0⟩
  | ExternalSourceConnector.file =>
    ⟨ByoConnectorKind.file, "", e, [], 0, 0⟩
  | ExternalSourceConnector.avroOcf =>
    ⟨ByoConnectorKind.file, "", e, [], 0, 0⟩
  | ExternalSourceConnector.kinesis =>
    ⟨ByoConnectorKind.kinesis, "", e, [], 0, 0⟩

/-- update_sources: drain the pending control messages in order.  Add
registers an untracked source in the registry matching its consistency
model (replaying persisted history for RT sources); DropInstance deletes
the persisted rows and removes the source from both registries;
Shutdown returns true immediately, leaving the remaining queued messages
unprocessed. -/
def update_sources (st : TimestamperState) :
    List TimestampMessage → Bool × TimestamperState × List AdvanceMsg
  | [] => (false, st, [])
  | m :: rest =>
    match m with
    | TimestampMessage.add id sc consistency e =>
      if alLookup id st.rt_sources = none ∧ alLookup id st.byo_sources = none then
        match consistency with
        | Consistency.realTime =>
          let rec0 := rt_recover_source st.storage id
          let st1 := { st with
            rt_sources := alInsert id (create_rt_connector sc rec0.1) st.rt_sources }
          let r := update_sources st1 rest
          (r.1, r.2.1, rec0.2 ++ r.2.2)
        | Consistency.bringYourOwn topic =>
          let st1 := { st with
            byo_sources := alInsert id (create_byo_connector sc topic e) st.byo_sources }
          update_sources st1 rest
      else update_sources st rest
    | TimestampMessage.dropInstance id =>
      let st1 := { st with
        storage := st.storage.filter (fun r => decide (r.id ≠ id)),
        rt_sources := alRemove id st.rt_sources,
        byo_sources := alRemove id st.byo_sources }
      update_sources st1 rest
    | TimestampMessage.shutdown => (true, st, [])

/- ------------------------------------------------------------------
   update_rt_timestamp, update_byo_timestamp, update
   (timestamp.rs lines 292-321, 379-447)
   ------------------------------------------------------------------ -/

/-- update_rt_timestamp: query the RT sources, mint one new global
timestamp, persist every watermark tuple under it, and send one
notification per tuple.  none models a mint loop that never observes a
strictly larger clock reading. -/
def update_rt_timestamp (rtEnv : Nat → List (Int × Int)) (reads : List Nat)
    (st : TimestamperState) : Option (TimestamperState × List AdvanceMsg) :=
  let q := rt_query_sources rtEnv st.max_increment_size st.current_timestamp st.rt_sources
  match rt_generate_next_timestamp st.current_timestamp reads with
  | none => none
  | some ts =>
    some ({ st with
        rt_sources := q.1,
        current_timestamp := ts,
        storage := st.storage ++ q.2.map (fun w => ⟨w.1, w.2.1, w.2.2.1, ts, w.2.2.2⟩) },
      q.2.map (fun w => ⟨w.1, w.2.1, w.2.2.1, ts, w.2.2.2⟩))

/-- update_byo_timestamp over the registry of BYO consumers: drain each
consumer's consistency topic, extract the well-formed updates, and run
the validation/emit loop; none models the unimplemented Debezium
envelope path (an unhandled-case failure in the source). -/
def update_byo_timestamp (byoEnv : Nat → List Payload) (maxInc : Int) :
    List (Nat × ByoTimestampConsumer) →
      Option (List (Nat × ByoTimestampConsumer) × List AdvanceMsg)
  | [] => some ([], [])
  | (id, c) :: rest =>
    let messages := byo_query_source c.connector (byoEnv id) maxInc
    match c.envelope with
    | Envelope.Debezium => none
    | Envelope.None =>
      let r := byoRun c (byo_extract_ts_update c messages)
      match update_byo_timestamp byoEnv maxInc rest with
      | none => none
      | some (rest', outs) =>
        some ((id, r.1) :: rest', r.2.map (withId id) ++ outs)

/-- Result of one iteration of the update loop (lines 292-303). -/
inductive TickResult : Type
  | shutdown (st : TimestamperState) (out : List AdvanceMsg)
  | stalled
  | panicked
  | next (st : TimestamperState) (out : List AdvanceMsg)
deriving DecidableEq

/-- One tick of Timestamper::update: drain the control messages; on
Shutdown stop without running either assigner; otherwise run the RT
assigner and then the BYO assigner, in that order, concatenating what
each sent on the notification channel. -/
def tick (rtEnv : Nat → List (Int × Int)) (reads : List Nat)
    (byoEnv : Nat → List Payload) (st : TimestamperState)
    (msgs : List TimestampMessage) : TickResult :=
  match update_sources st msgs with
  | (true, st1, out1) => TickResult.shutdown st1 out1
  | (false, st1, out1) =>
    match update_rt_timestamp rtEnv reads st1 with
    | none => TickResult.stalled
    | some (st2, out2) =>
      match update_byo_timestamp byoEnv st2.max_increment_size st2.byo_sources with
      | none => TickResult.panicked
      | some (byo3, out3) =>
        TickResult.next { st2 with byo_sources := byo3 } (out1 ++ out2 ++ out3)

/- quick sanity checks, spec scenarios 1-4 -/
def scenarioConsumer : ByoTimestampConsumer :=
  ⟨ByoConnectorKind.kafka "tst", "S", Envelope.None, [], 0, 1⟩

example :
    byoRun scenarioConsumer (byo_extract_ts_update scenarioConsumer
      [Payload.text "S,1,0,100,50"]) =
    (⟨ByoConnectorKind.kafka "tst", "S", Envelope.None, [(0, 100)], 100, 1⟩,
      [⟨1, 0, 100, 50⟩]) := by decide

example :
    byoRun ⟨ByoConnectorKind.kafka "tst", "S", Envelope.None, [(0, 100)], 100, 1⟩
      (byo_extract_ts_update scenarioConsumer [Payload.text "S,2,1,150,0"]) =
    (⟨ByoConnectorKind.kafka "tst", "S", Envelope.None, [(0, 100), (1, 150)], 150, 2⟩,
      [⟨2, 1, 100, 0⟩, ⟨2, 1, 150, 0⟩]) := by decide

example :
    byoRun ⟨ByoConnectorKind.kafka "tst", "S", Envelope.None, [(0, 100), (1, 150)], 150, 2⟩
      (byo_extract_ts_update scenarioConsumer [Payload.text "S,2,0,90,60"]) =
    (⟨ByoConnectorKind.kafka "tst", "S", Envelope.None, [(0, 100), (1, 150)], 150, 2⟩,
      []) := by decide

example : byo_extract_ts_update scenarioConsumer [Payload.text "S,1,0"] = [] := by decide

example : rtNextOffset 1000 2000 500 = 1500 := by decide
example : rtNextOffset 1000 1200 500 = 1200 := by decide

/- ------------------------------------------------------------------
   Helper lemmas
   ------------------------------------------------------------------ -/

/-- Characterization of non-rejection in update_byo_timestamp. -/
lemma byoReject_false_iff (c : ByoTimestampConsumer) (u : TsUpdate) :
    byoReject c u = false ↔
      (u.ts ≠ 0 ∧ u.ts ≠ U64MAX ∧ lastPartTs c u.partition < u.ts ∧ c.last_ts ≤ u.ts ∧
        (u.partition_count ≤ c.current_partition_count ∨ c.last_ts < u.ts)) := by
  simp only [byoReject, Bool.or_eq_false_iff, Bool.and_eq_false_iff,
    decide_eq_false_iff_not, not_lt, not_le]
  omega

lemma alLookup_alInsert_self {κ α : Type} [DecidableEq κ] (k : κ) (v : α) :
    ∀ l : List (κ × α), alLookup k (alInsert k v l) = some v := by
  intro l
  induction l with
  | nil => simp [alInsert, alLookup]
  | cons x rest ih =>
    obtain ⟨k0, v0⟩ := x
    by_cases h : k0 = k
    · simp [alInsert, alLookup, h]
    · simp [alInsert, alLookup, h, ih]

lemma alLookup_alInsert_other {κ α : Type} [DecidableEq κ] (k k' : κ) (v : α)
    (h : k' ≠ k) : ∀ l : List (κ × α), alLookup k' (alInsert k v l) = alLookup k' l := by
  intro l
  induction l with
  | nil => simp [alInsert, alLookup, Ne.symm h]
  | cons x rest ih =>
    obtain ⟨k0, v0⟩ := x
    by_cases h0 : k0 = k
    · subst h0; simp [alInsert, alLookup, Ne.symm h]
    · simp [alInsert, alLookup, h0, ih]

lemma lastPartTs_byoStep_self (c : ByoTimestampConsumer) (u : TsUpdate)
    (h : byoReject c u = false) : lastPartTs (byoStep c u).1 u.partition = u.ts := by
  simp [byoStep, h, lastPartTs, alLookup_alInsert_self]

lemma lastPartTs_byoStep_other (c : ByoTimestampConsumer) (u : TsUpdate) (p : Int)
    (h : byoReject c u = false) (hp : p ≠ u.partition) :
    lastPartTs (byoStep c u).1 p = lastPartTs c p := by
  simp [byoStep, h, lastPartTs, alLookup_alInsert_other u.partition p u.ts hp]

lemma byoStep_last_ts_le (c : ByoTimestampConsumer) (u : TsUpdate) :
    c.last_ts ≤ (byoStep c u).1.last_ts := by
  cases h : byoReject c u with
  | true => simp [byoStep, h]
  | false =>
    have hf := (byoReject_false_iff c u).mp h
    simp only [byoStep, h, Bool.false_eq_true, if_false]
    exact hf.2.2.2.1

lemma byoRun_cons (c : ByoTimestampConsumer) (u : TsUpdate) (rest : List TsUpdate) :
    byoRun c (u :: rest) =
      ((byoRun (byoStep c u).1 rest).1,
        (byoStep c u).2 ++ (byoRun (byoStep c u).1 rest).2) := by
  simp [byoRun]

lemma rt_generate_gt (current : Nat) :
    ∀ (reads : List Nat) (t : Nat),
      rt_generate_next_timestamp current reads = some t → current < t := by
  intro reads
  induction reads with
  | nil => intro t h; simp [rt_generate_next_timestamp] at h
  | cons r rest ih =>
    intro t h
    simp only [rt_generate_next_timestamp] at h
    split at h
    · exact ih t h
    · next hle => injection h with h2; omega

/- ------------------------------------------------------------------
   Claim theorems
   ------------------------------------------------------------------ -/

/-- C3: for any sequence of mint operations within one process lifetime,
each resulting value of current_timestamp is strictly greater than the
previous value, even when the wall-clock reads are non-increasing or
repeat (the mint loop re-samples until a strictly larger value is
observed). -/
theorem c3_mint_monotone (current : Nat) (readss : List (List Nat)) :
    List.Chain (fun a b => a < b) current (rtMintRun current readss) := by
  induction readss generalizing current with
  | nil => simp [rtMintRun]
  | cons reads rest ih =>
    cases h : rt_generate_next_timestamp current reads with
    | none => simp [rtMintRun, h]
    | some t =>
      simp only [rtMintRun, h]
      exact List.Chain.cons (rt_generate_gt current reads t h) (ih t)

/-- C6: for every RT source partition processed in a tick, the chosen
next offset equals min(high watermark, last_offset + max_increment_size),
hence advances by at most max_increment_size and never beyond the high
watermark, and the threaded last_offset is updated to it. -/
theorem c6_rt_increment_bound (last high maxInc p : Int) (rest : List (Int × Int)) :
    rtNextOffset last high maxInc = min high (last + maxInc)
    ∧ rtNextOffset last high maxInc - last ≤ maxInc
    ∧ rtNextOffset last high maxInc ≤ high
    ∧ rtQueryPartitions maxInc last ((p, high) :: rest) =
        ((rtQueryPartitions maxInc (rtNextOffset last high maxInc) rest).1,
          (p, rtNextOffset last high maxInc) ::
            (rtQueryPartitions maxInc (rtNextOffset last high maxInc) rest).2) := by
  refine ⟨?_, ?_, ?_, by simp [rtQueryPartitions]⟩ <;>
    · unfold rtNextOffset
      split <;> omega

/-- Modelled from the spec: the BYO acceptance predicate exactly as the
spec states it (section 8, BYO acceptance rule): ts not in 0 or MAX,
ts > Lp, ts >= L, and (pcount > c or ts > L). -/
def specByoAccept (c : ByoTimestampConsumer) (u : TsUpdate) : Bool :=
  decide (u.ts ≠ 0) && decide (u.ts ≠ U64MAX)
    && decide (lastPartTs c u.partition < u.ts) && decide (c.last_ts ≤ u.ts)
    && (decide (c.current_partition_count < u.partition_count)
        || decide (c.last_ts < u.ts))

/-- C1 counterexample: in state c = 1, L = 100, Lp(0) = 100, the tuple
(pcount = 1, p = 1, ts = 100, off = 5) is rejected by the spec's rule
(pcount > c fails and ts > L fails) yet the code accepts it: it emits a
notification and mutates the state, so the spec's rule and the claimed
reject-leaves-state-unchanged behaviour are both violated at this
input. -/
theorem c1_counterexample :
    specByoAccept
        ⟨ByoConnectorKind.kafka "tst", "S", Envelope.None, [(0, 100)], 100, 1⟩
        ⟨1, 1, 100, 5⟩ = false
    ∧ (byoStep ⟨ByoConnectorKind.kafka "tst", "S", Envelope.None, [(0, 100)], 100, 1⟩
        ⟨1, 1, 100, 5⟩).2 = [⟨1, 1, 100, 5⟩]
    ∧ (byoStep ⟨ByoConnectorKind.kafka "tst", "S", Envelope.None, [(0, 100)], 100, 1⟩
        ⟨1, 1, 100, 5⟩).1.last_partition_ts = [(0, 100), (1, 100)] := by
  refine ⟨by decide, by decide, by decide⟩

/-- C1 amended: a well-formed tuple is accepted iff ts is neither 0 nor
u64::MAX, ts > Lp, ts >= L, and (pcount <= c or ts > L) — i.e. a repeat
of L is allowed exactly when the partition count does not grow; every
rejected tuple leaves the consumer state unchanged and emits no
notification. -/
theorem c1_byo_acceptance (c : ByoTimestampConsumer) (u : TsUpdate) :
    (byoReject c u = false ↔
      (u.ts ≠ 0 ∧ u.ts ≠ U64MAX ∧ lastPartTs c u.partition < u.ts ∧ c.last_ts ≤ u.ts ∧
        (u.partition_count ≤ c.current_partition_count ∨ c.last_ts < u.ts)))
    ∧ (byoReject c u = true → byoStep c u = (c, [])) := by
  refine ⟨byoReject_false_iff c u, ?_⟩
  intro h
  simp [byoStep, h]

/-- C1 witness: the acceptance characterization and the
reject-is-a-no-op half evaluated at a concrete rejected tuple (ts = 0). -/
theorem c1_byo_acceptance_witness :
    byoStep ⟨ByoConnectorKind.kafka "tst", "S", Envelope.None, [], 0, 1⟩ ⟨1, 0, 0, 5⟩ =
      (⟨ByoConnectorKind.kafka "tst", "S", Envelope.None, [], 0, 1⟩, []) :=
  (c1_byo_acceptance ⟨ByoConnectorKind.kafka "tst", "S", Envelope.None, [], 0, 1⟩
    ⟨1, 0, 0, 5⟩).2 (by decide)

/-- C5: accepting a tuple whose partition count is exactly one above the
current count emits the synthetic closing notification
(pid = old count = pcount - 1, timestamp = old last_ts, offset = 0)
before the real notification, and afterwards the consumer records the
new partition count, last_ts = ts and last_partition_ts[p] = ts. -/
theorem c5_partition_growth (c : ByoTimestampConsumer) (u : TsUpdate)
    (hacc : byoReject c u = false)
    (hgrow : u.partition_count = c.current_partition_count + 1) :
    byoStep c u =
      ({ c with
          current_partition_count := u.partition_count,
          last_ts := u.ts,
          last_partition_ts := alInsert u.partition u.ts c.last_partition_ts },
        [⟨u.partition_count, c.current_partition_count, c.last_ts, 0⟩,
          ⟨u.partition_count, u.partition, u.ts, u.offset⟩]) := by
  have hlt : c.current_partition_count < u.partition_count := by omega
  simp only [byoStep, hacc, Bool.false_eq_true, if_false, if_pos hlt]
  rw [hgrow]
  simp

/-- C5 witness: spec scenario 2, growing the partition count from 1 to 2
with the accepted tuple (2, 1, 150, 0) from state L = 100. -/
theorem c5_partition_growth_witness :
    byoStep ⟨ByoConnectorKind.kafka "tst", "S", Envelope.None, [(0, 100)], 100, 1⟩
        ⟨2, 1, 150, 0⟩ =
      (⟨ByoConnectorKind.kafka "tst", "S", Envelope.None, [(0, 100), (1, 150)], 150, 2⟩,
        [⟨2, 1, 100, 0⟩, ⟨2, 1, 150, 0⟩]) := by
  have h := c5_partition_growth
    ⟨ByoConnectorKind.kafka "tst", "S", Envelope.None, [(0, 100)], 100, 1⟩
    ⟨2, 1, 150, 0⟩ (by decide) (by decide)
  rw [h]
  decide

lemma byoAcceptedChain (p : Int) :
    ∀ (us : List TsUpdate) (c : ByoTimestampConsumer),
      List.Chain (fun a b => a < b) (lastPartTs c p)
        (((byoAcceptedRun c us).filter (fun u => u.partition == p)).map
          (fun u => u.ts)) := by
  intro us
  induction us with
  | nil => intro c; simp [byoAcceptedRun]
  | cons u rest ih =>
    intro c
    cases h : byoReject c u with
    | true => simpa [byoAcceptedRun, h] using ih c
    | false =>
      have hf := (byoReject_false_iff c u).mp h
      simp only [byoAcceptedRun, h, Bool.false_eq_true, if_false]
      by_cases hp : u.partition = p
      · simp only [List.filter_cons, hp, beq_self_eq_true, if_pos, List.map_cons]
        refine List.Chain.cons ?_ ?_
        · rw [← hp]; exact hf.2.2.1
        · have hanchor : lastPartTs (byoStep c u).1 p = u.ts := by
            rw [← hp]; exact lastPartTs_byoStep_self c u h
          have := ih (byoStep c u).1
          rw [hanchor] at this
          exact this
      · have hb : (u.partition == p) = false := by simp [hp]
        simp only [List.filter_cons, hb, Bool.false_eq_true, if_false]
        have hanchor : lastPartTs (byoStep c u).1 p = lastPartTs c p :=
          lastPartTs_byoStep_other c u p h (fun e => hp e.symm)
        have := ih (byoStep c u).1
        rw [hanchor] at this
        exact this

lemma byoRun_last_ts_le : ∀ (us : List TsUpdate) (c : ByoTimestampConsumer),
    c.last_ts ≤ (byoRun c us).1.last_ts := by
  intro us
  induction us with
  | nil => intro c; simp [byoRun]
  | cons u rest ih =>
    intro c
    rw [byoRun_cons]
    exact le_trans (byoStep_last_ts_le c u) (ih (byoStep c u).1)

lemma byoAccepted_ts_facts : ∀ (us : List TsUpdate) (c : ByoTimestampConsumer)
    (u : TsUpdate), u ∈ byoAcceptedRun c us → u.ts ≠ 0 ∧ u.ts ≠ U64MAX := by
  intro us
  induction us with
  | nil => intro c u h; simp [byoAcceptedRun] at h
  | cons v rest ih =>
    intro c u h
    cases hr : byoReject c v with
    | true =>
      rw [byoAcceptedRun, hr] at h
      simp at h
      exact ih c u h
    | false =>
      rw [byoAcceptedRun, hr] at h
      simp only [Bool.false_eq_true, if_false, List.mem_cons] at h
      cases h with
      | inl he =>
        rw [he]
        have hf := (byoReject_false_iff c v).mp hr
        exact ⟨hf.1, hf.2.1⟩
      | inr hm => exact ih (byoStep c v).1 u hm

/-- C7: from any consumer state, over any batch of extracted tuples, the
timestamps the BYO assigner accepts for a single partition form a
strictly increasing sequence (anchored above the partition's current
last timestamp), the source-wide last_ts never decreases, and no
accepted timestamp is 0 or u64::MAX. -/
theorem c7_byo_invariants (c : ByoTimestampConsumer) (us : List TsUpdate) (p : Int) :
    List.Chain (fun a b => a < b) (lastPartTs c p)
      (((byoAcceptedRun c us).filter (fun u => u.partition == p)).map (fun u => u.ts))
    ∧ c.last_ts ≤ (byoRun c us).1.last_ts
    ∧ (∀ u : TsUpdate, u ∈ byoAcceptedRun c us → u.ts ≠ 0 ∧ u.ts ≠ U64MAX) :=
  ⟨byoAcceptedChain p us c, byoRun_last_ts_le us c, byoAccepted_ts_facts us c⟩

/-- C7 witness: the invariant evaluated on spec scenarios 1 and 2 run in
sequence from a fresh consumer tracking partition 0. -/
theorem c7_byo_invariants_witness :
    (100 : Nat) ≠ 0 ∧ (100 : Nat) ≠ U64MAX :=
  (c7_byo_invariants ⟨ByoConnectorKind.kafka "tst", "S", Envelope.None, [], 0, 1⟩
    [⟨1, 0, 100, 50⟩, ⟨2, 1, 150, 0⟩] 0).2.2 ⟨1, 0, 100, 50⟩ (by decide)

lemma byoStep_fresh (c : ByoTimestampConsumer) (u : TsUpdate)
    (hc : c.current_partition_count = 0) (hl : c.last_ts = 0)
    (hacc : byoReject c u = false) (hpc : 1 ≤ u.partition_count) :
    (byoStep c u).2 = [⟨u.partition_count, u.partition_count - 1, 0, 0⟩,
      ⟨u.partition_count, u.partition, u.ts, u.offset⟩] := by
  have hlt : c.current_partition_count < u.partition_count := by omega
  simp [byoStep, hacc, if_pos hlt, hl]

/-- C10: every BYO consumer starts with partition count 0, last_ts 0 and
an empty partition map, so the first accepted tuple with a positive
partition count always triggers the synthetic closing notification
(pid = pcount - 1, timestamp = 0, offset = 0) before the real one. -/
theorem c10_first_accept_synthetic (sc : ExternalSourceConnector) (topic : String)
    (e : Envelope) :
    (create_byo_connector sc topic e).current_partition_count = 0
    ∧ (create_byo_connector sc topic e).last_ts = 0
    ∧ (create_byo_connector sc topic e).last_partition_ts = []
    ∧ (∀ u : TsUpdate, byoReject (create_byo_connector sc topic e) u = false →
        1 ≤ u.partition_count →
        (byoStep (create_byo_connector sc topic e) u).2 =
          [⟨u.partition_count, u.partition_count - 1, 0, 0⟩,
            ⟨u.partition_count, u.partition, u.ts, u.offset⟩]) := by
  cases sc <;>
    exact ⟨rfl, rfl, rfl, fun u hacc hpc => byoStep_fresh _ u rfl rfl hacc hpc⟩

/-- C10 witness: spec scenario 1 run against a freshly created consumer
(partition count 0) emits the synthetic (1, 0, 0, 0) before the real
notification. -/
theorem c10_first_accept_synthetic_witness :
    (byoStep (create_byo_connector (ExternalSourceConnector.kafka "S") "tst"
        Envelope.None) ⟨1, 0, 100, 50⟩).2 =
      [⟨1, 0, 0, 0⟩, ⟨1, 0, 100, 50⟩] :=
  (c10_first_accept_synthetic (ExternalSourceConnector.kafka "S") "tst"
    Envelope.None).2.2.2 ⟨1, 0, 100, 50⟩ (by decide) (by decide)

lemma byo_extract_skip (c : ByoTimestampConsumer) (p : Payload)
    (h : byo_extract_one c p = none) :
    ∀ ms1 ms2 : List Payload,
      byo_extract_ts_update c (ms1 ++ p :: ms2) = byo_extract_ts_update c (ms1 ++ ms2) := by
  intro ms1
  induction ms1 with
  | nil => intro ms2; simp [byo_extract_ts_update, h]
  | cons m t ih =>
    intro ms2
    simp only [List.cons_append, byo_extract_ts_update]
    cases hm : byo_extract_one c m <;> simp [ih]

/-- C9: a raw control message that is not UTF-8, does not split into
exactly five comma fields, has an unparseable numeric field, or names a
different source, yields no update; dropping it from a batch leaves the
extracted updates — and hence the consumer state and notifications of
the subsequent run — unchanged, so the rest of the batch is processed
as if the bad message were absent. -/
theorem c9_malformed_discarded (c : ByoTimestampConsumer) (s : String)
    (ms1 ms2 : List Payload) (p : Payload) :
    byo_extract_one c Payload.utf8Err = none
    ∧ ((splitComma s).length ≠ 5 → byo_extract_one c (Payload.text s) = none)
    ∧ (∀ f0 f1 f2 f3 f4 : String, splitComma s = [f0, f1, f2, f3, f4] →
        (parse_i32 f1 = none ∨ parse_i32 f2 = none ∨ parse_u64 f3 = none
          ∨ parse_i64 f4 = none) →
        byo_extract_one c (Payload.text s) = none)
    ∧ (∀ f0 f1 f2 f3 f4 : String, splitComma s = [f0, f1, f2, f3, f4] →
        f0 ≠ c.source_name → byo_extract_one c (Payload.text s) = none)
    ∧ (byo_extract_one c p = none →
        byo_extract_ts_update c (ms1 ++ p :: ms2) = byo_extract_ts_update c (ms1 ++ ms2)
        ∧ byoRun c (byo_extract_ts_update c (ms1 ++ p :: ms2)) =
            byoRun c (byo_extract_ts_update c (ms1 ++ ms2))) := by
  refine ⟨rfl, ?_, ?_, ?_, ?_⟩
  · intro h
    simp only [byo_extract_one]
    split
    · next f0 f1 f2 f3 f4 heq => rw [heq] at h; simp at h
    · rfl
  · intro f0 f1 f2 f3 f4 heq hbad
    simp only [byo_extract_one, heq]
    rcases hbad with h | h | h | h
    · simp [h]
    · cases h1 : parse_i32 f1 <;> simp [h1, h]
    · cases h1 : parse_i32 f1 <;> cases h2 : parse_i32 f2 <;> simp [h1, h2, h]
    · cases h1 : parse_i32 f1 <;> cases h2 : parse_i32 f2 <;>
        cases h3 : parse_u64 f3 <;> simp [h1, h2, h3, h]
  · intro f0 f1 f2 f3 f4 heq hne
    simp only [byo_extract_one, heq]
    cases h1 : parse_i32 f1 <;> cases h2 : parse_i32 f2 <;>
      cases h3 : parse_u64 f3 <;> cases h4 : parse_i64 f4 <;> simp [hne]
  · intro h
    have hs := byo_extract_skip c p h ms1 ms2
    exact ⟨hs, by rw [hs]⟩

/-- C9 witness: spec scenario 4, the three-field message is dropped and
the rest of the batch is still processed. -/
theorem c9_malformed_discarded_witness :
    byo_extract_ts_update scenarioConsumer
        [Payload.text "S,1,0", Payload.text "S,1,0,100,50"] =
      byo_extract_ts_update scenarioConsumer [Payload.text "S,1,0,100,50"] :=
  ((c9_malformed_discarded scenarioConsumer "S,1,0" [] [Payload.text "S,1,0,100,50"]
    (Payload.text "S,1,0")).2.2.2.2 (by decide)).1

/-- C2: the recovery read of Timestamper::new asks for column index 2 of
the one-column MAX(timestamp) result row, so it always falls back to 0:
with a persisted maximum of 5000 the clock restarts at 0 (not 5000, as
the spec's recovery rule demands) and a later mint can return 3 < 5000,
regressing below the persisted maximum. -/
theorem c2_recovery_code_bug :
    newCurrentTimestamp [⟨0, 1, 0, 5000, 10⟩] = 0
    ∧ specRecoveredTimestamp [⟨0, 1, 0, 5000, 10⟩] = 5000
    ∧ rt_generate_next_timestamp (newCurrentTimestamp [⟨0, 1, 0, 5000, 10⟩]) [3] = some 3
    ∧ 3 < 5000 :=
  ⟨by decide, by decide, by decide, by decide⟩

lemma byoDrain_length (maxInc : Int) :
    ∀ (queue : List Payload) (count : Int), count < maxInc →
      ((byoDrain maxInc queue count).length : Int) ≤ maxInc - count := by
  intro queue
  induction queue with
  | nil => intro count h; simp [byoDrain]; omega
  | cons m rest ih =>
    intro count h
    simp only [byoDrain, List.length_cons]
    by_cases he : count + 1 = maxInc
    · rw [if_pos he]; simp; omega
    · rw [if_neg he]
      have := ih (count + 1) (by omega)
      push_cast at this ⊢
      omega

/-- C8 counterexample: with max_increment_size = 0 the drain's stop test
(an equality check against the running count) never fires, so a single
queued message is still drained — more than max_increment_size. -/
theorem c8_drain_counterexample :
    (byo_query_source (ByoConnectorKind.kafka "tst") [Payload.text "m"] 0).length = 1
    ∧ (0 : Int) < 1 :=
  ⟨by decide, by decide⟩

/-- C8 amended: when max_increment_size is at least 1, each tick drains
at most max_increment_size raw messages from a BYO source's connector
(with max_increment_size ≤ 0 the equality stop test never fires and the
drain is unbounded). -/
theorem c8_drain_bound (k : ByoConnectorKind) (queue : List Payload) (maxInc : Int)
    (h : 1 ≤ maxInc) :
    ((byo_query_source k queue maxInc).length : Int) ≤ maxInc := by
  cases k with
  | kafka t =>
    have hb := byoDrain_length maxInc queue 0 (by omega)
    simp only [byo_query_source]
    omega
  | kinesis => simp [byo_query_source]; omega
  | file => simp [byo_query_source]; omega

/-- C8 witness: a queue of three messages drained with
max_increment_size = 2 yields at most 2 messages. -/
theorem c8_drain_bound_witness :
    ((byo_query_source (ByoConnectorKind.kafka "tst")
        [Payload.text "a", Payload.text "b", Payload.text "c"] 2).length : Int) ≤ 2 :=
  c8_drain_bound (ByoConnectorKind.kafka "tst")
    [Payload.text "a", Payload.text "b", Payload.text "c"] 2 (by decide)

lemma update_sources_no_shutdown (msgs : List TimestampMessage) :
    ∀ st : TimestamperState, TimestampMessage.shutdown ∉ msgs →
      (update_sources st msgs).1 = false := by
  induction msgs with
  | nil => intro st h; simp [update_sources]
  | cons m rest ih =>
    intro st h
    have hrest : TimestampMessage.shutdown ∉ rest :=
      fun hh => h (List.mem_cons_of_mem m hh)
    cases m with
    | add id sc consistency e =>
      cases consistency with
      | realTime =>
        by_cases hc : alLookup id st.rt_sources = none ∧ alLookup id st.byo_sources = none
        · simp only [update_sources, if_pos hc]
          exact ih _ hrest
        · simp only [update_sources, if_neg hc]
          exact ih _ hrest
      | bringYourOwn topic =>
        by_cases hc : alLookup id st.rt_sources = none ∧ alLookup id st.byo_sources = none
        · simp only [update_sources, if_pos hc]
          exact ih _ hrest
        · simp only [update_sources, if_neg hc]
          exact ih _ hrest
    | dropInstance id =>
      simp only [update_sources]
      exact ih _ hrest
    | shutdown => exact absurd (List.mem_cons_self _ _) h

lemma update_sources_append (pre : List TimestampMessage) :
    ∀ (st : TimestamperState) (more : List TimestampMessage),
      TimestampMessage.shutdown ∉ pre →
      update_sources st (pre ++ more) =
        ((update_sources (update_sources st pre).2.1 more).1,
          (update_sources (update_sources st pre).2.1 more).2.1,
          (update_sources st pre).2.2
            ++ (update_sources (update_sources st pre).2.1 more).2.2) := by
  induction pre with
  | nil =>
    intro st more _
    simp [update_sources]
  | cons m rest ih =>
    intro st more h
    have hrest : TimestampMessage.shutdown ∉ rest :=
      fun hh => h (List.mem_cons_of_mem m hh)
    cases m with
    | add id sc consistency e =>
      cases consistency with
      | realTime =>
        by_cases hc : alLookup id st.rt_sources = none ∧ alLookup id st.byo_sources = none
        · simp only [List.cons_append, update_sources, if_pos hc, List.append_eq]
          rw [ih _ more hrest]
          simp
        · simp only [List.cons_append, update_sources, if_neg hc]
          exact ih _ more hrest
      | bringYourOwn topic =>
        by_cases hc : alLookup id st.rt_sources = none ∧ alLookup id st.byo_sources = none
        · simp only [List.cons_append, update_sources, if_pos hc]
          exact ih _ more hrest
        · simp only [List.cons_append, update_sources, if_neg hc]
          exact ih _ more hrest
    | dropInstance id =>
      simp only [List.cons_append, update_sources]
      exact ih _ more hrest
    | shutdown => exact absurd (List.mem_cons_self _ _) h

/-- C4 counterexample: a queued Add that follows the Shutdown message in
the same drain is never applied — update_sources reports shutdown but
the registry does not contain the added source, contradicting the
claimed finish-the-drain behaviour. -/
theorem c4_counterexample :
    (update_sources ⟨[], [], [], 0, 10⟩
        [TimestampMessage.shutdown,
          TimestampMessage.add 1 (ExternalSourceConnector.kafka "top")
            Consistency.realTime Envelope.None]).1 = true
    ∧ alLookup 1 (update_sources ⟨[], [], [], 0, 10⟩
        [TimestampMessage.shutdown,
          TimestampMessage.add 1 (ExternalSourceConnector.kafka "top")
            Consistency.realTime Envelope.None]).2.1.rt_sources = none :=
  ⟨by decide, by decide⟩

/-- C4 amended: each tick drains the pending control messages in order;
when a Shutdown is seen the loop terminates immediately — the messages
before it are applied, the ones after it are discarded, and neither
assigner runs that tick; when no Shutdown is pending the whole drain is
applied first and then the RT assigner runs followed by the BYO
assigner, their notifications following the drain's in that order. -/
theorem c4_tick_order (rtEnv : Nat → List (Int × Int)) (reads : List Nat)
    (byoEnv : Nat → List Payload) (st : TimestamperState)
    (pre post msgs : List TimestampMessage)
    (hpre : TimestampMessage.shutdown ∉ pre)
    (hmsgs : TimestampMessage.shutdown ∉ msgs) :
    tick rtEnv reads byoEnv st (pre ++ TimestampMessage.shutdown :: post) =
        TickResult.shutdown (update_sources st pre).2.1 (update_sources st pre).2.2
    ∧ (update_sources st msgs).1 = false
    ∧ (∀ st2 out2,
        update_rt_timestamp rtEnv reads (update_sources st msgs).2.1 = some (st2, out2) →
        ∀ byo3 out3,
        update_byo_timestamp byoEnv st2.max_increment_size st2.byo_sources =
          some (byo3, out3) →
        tick rtEnv reads byoEnv st msgs =
          TickResult.next { st2 with byo_sources := byo3 }
            ((update_sources st msgs).2.2 ++ out2 ++ out3)) := by
  have h1 : update_sources st (pre ++ TimestampMessage.shutdown :: post) =
      (true, (update_sources st pre).2.1, (update_sources st pre).2.2 ++ []) := by
    rw [update_sources_append pre st _ hpre]
    simp [update_sources]
  refine ⟨?_, update_sources_no_shutdown msgs st hmsgs, ?_⟩
  · rw [tick, h1]
    simp
  · intro st2 out2 hrt byo3 out3 hbyo
    rcases hu : update_sources st msgs with ⟨b, st1, out1⟩
    have hb : b = false := by
      have := update_sources_no_shutdown msgs st hmsgs
      rw [hu] at this
      exact this
    subst hb
    rw [hu] at hrt
    simp only at hrt
    rw [tick, hu]
    simp only [hrt, hbyo]

/-- C4 witness: with no tracked sources, a lone Shutdown stops the tick
without output, and an empty drain runs the RT assigner (minting clock
value 1) and then the BYO assigner. -/
theorem c4_tick_order_witness :
    tick (fun _ => []) [1] (fun _ => []) ⟨[], [], [], 0, 10⟩
        [TimestampMessage.shutdown] =
      TickResult.shutdown ⟨[], [], [], 0, 10⟩ []
    ∧ tick (fun _ => []) [1] (fun _ => []) ⟨[], [], [], 0, 10⟩ [] =
      TickResult.next ⟨[], [], [], 1, 10⟩ [] := by
  have h := c4_tick_order (fun _ => []) [1] (fun _ => []) ⟨[], [], [], 0, 10⟩
    [] [] [] (by simp) (by simp)
  exact ⟨h.1, h.2.2 ⟨[], [], [], 1, 10⟩ [] (by decide) [] [] (by decide)⟩
